import Mathlib

/-!
Shallow embedding of the isco_bot event-notification engine
(`src/database.py` and `src/bot.py`) and proofs about its claims.

Modelling conventions:
* datetimes are minutes since an arbitrary epoch; naive timestamps are `Int`,
  timezone-aware datetimes are `AwareDT` (a wall-clock value plus a fixed
  UTC offset, both in minutes); `pytz` DST subtleties are out of scope,
  the configured zone is modelled as a fixed offset;
* the relational store is a `DB` record of lists mirroring the three tables;
* the Python `str(timedelta)` rendering inside job-id f-strings is modelled
  as `toString` of the delta's minute count (injective on the deltas used,
  as `str` is on the timedeltas used);
* per-user delivery outcomes of the external chat transport are an oracle
  `deliverOk : Nat → Bool`; a caught exception corresponds to `false`.
-/

/-- Row of the `events` table: `event_datetime` is stored as a naive UTC
wall-clock value (minutes). -/
structure Event where
  event_id : Nat
  title : String
  description : String
  photo_id : String
  event_datetime : Int
deriving Repr, DecidableEq

/-- Row of the `notifications` table (the dedup ledger); the composite key
is `(event_id, user_id, notification_type)`. -/
structure NotifRecord where
  event_id : Nat
  user_id : Nat
  notification_type : String
deriving Repr, DecidableEq

/-- The relational store: `events`, `users` (ids only, as used by the bot)
and the `notifications` dedup ledger. -/
structure DB where
  events : List Event
  users : List Nat
  notifications : List NotifRecord
deriving Repr, DecidableEq

/-- A timezone-aware datetime: local wall-clock minutes plus the zone's
UTC offset in minutes (east positive). -/
structure AwareDT where
  wall : Int
  offset : Int
deriving Repr, DecidableEq

/-- The absolute instant denoted by an aware datetime, as UTC minutes. -/
def instant (d : AwareDT) : Int := d.wall - d.offset

/-- Model of `pytz` `timezone.localize(naive)`: attach the zone's offset to
a naive wall-clock value without changing the wall-clock fields. -/
def pytz_localize (tzOffset : Int) (naive : Int) : AwareDT :=
  { wall := naive, offset := tzOffset }

/-- Model of `dt.astimezone(pytz.UTC)`: same instant re-expressed at
offset 0. -/
def astimezone_utc (d : AwareDT) : AwareDT :=
  { wall := instant d, offset := 0 }

/-- Model of `database.py` `create_event` lines 81-83: an aware datetime is
converted to UTC and the zone tag dropped (`.replace(tzinfo=None)`) before
storage. -/
def create_event_store (d : AwareDT) : Int := (astimezone_utc d).wall

/-- Model of `database.py` `create_event`: append the new row (the serial
`event_id` is passed in). -/
def create_event (db : DB) (eid : Nat) (title description photo_id : String)
    (event_datetime : AwareDT) : DB :=
  { db with events := db.events ++
      [{ event_id := eid, title := title, description := description,
         photo_id := photo_id,
         event_datetime := create_event_store event_datetime }] }

/-- Existence test for a ledger row with the given composite key, as used by
the `NOT EXISTS` subquery and the `ON CONFLICT` clause. -/
def hasRecordKey (db : DB) (eid uid : Nat) (t : String) : Bool :=
  db.notifications.any
    (fun n => n.event_id == eid && n.user_id == uid && n.notification_type == t)

/-- Ledger existence test specialised to the `initial_notification` kind used
by `get_events_for_new_user`. -/
def hasInitialRecord (db : DB) (eid uid : Nat) : Bool :=
  hasRecordKey db eid uid "initial_notification"

/-- Effect of the `INSERT ... ON CONFLICT (event_id, user_id,
notification_type) DO NOTHING` statement of `record_notification`: append the
row unless the composite key is already present. -/
def insertRecord (db : DB) (eid uid : Nat) (t : String) : DB :=
  if hasRecordKey db eid uid t then db
  else { db with notifications := db.notifications ++
          [{ event_id := eid, user_id := uid, notification_type := t }] }

/-- Model of `database.py` `record_notification` lines 180-193: a storage
fault other than the duplicate-key conflict (the `fault` oracle) is re-raised
after logging; otherwise the insert-or-ignore runs and the call succeeds. -/
def record_notification (fault : Option String) (db : DB) (eid uid : Nat)
    (t : String) : Except String DB :=
  match fault with
  | some f => Except.error f
  | none => Except.ok (insertRecord db eid uid t)

/-- Ordering used by the SQL `ORDER BY event_datetime`. -/
def eventLE (a b : Event) : Prop := a.event_datetime ≤ b.event_datetime

instance : DecidableRel eventLE :=
  fun a b => Int.decLe a.event_datetime b.event_datetime

instance : IsTotal Event eventLE :=
  ⟨fun a b => le_total a.event_datetime b.event_datetime⟩

instance : IsTrans Event eventLE :=
  ⟨fun _ _ _ h1 h2 => le_trans h1 h2⟩

/-- Row shape returned by `get_upcoming_events`: the event columns with
`event_datetime` replaced by the localized value. -/
structure EventOut where
  event_id : Nat
  title : String
  description : String
  photo_id : String
  event_datetime : AwareDT
deriving Repr, DecidableEq

/-- Row conversion of `get_upcoming_events` lines 130-133:
`event['event_datetime'] = timezone.localize(event['event_datetime'])`. -/
def toEventOut (tzOffset : Int) (e : Event) : EventOut :=
  { event_id := e.event_id, title := e.title, description := e.description,
    photo_id := e.photo_id,
    event_datetime := pytz_localize tzOffset e.event_datetime }

/-- Model of `database.py` `get_upcoming_events` lines 92-135: rows with
`event_datetime > utc_now` (and within the horizon when `hours_ahead` is
given), ordered ascending by the stored datetime, each localized to the
configured zone. `utc_now` stands for `datetime.now(pytz.UTC).replace(tzinfo=None)`. -/
def get_upcoming_events (db : DB) (utc_now tzOffset : Int)
    (hours_ahead : Option Int) : List EventOut :=
  let rows := match hours_ahead with
    | some h => db.events.filter
        (fun e => decide (utc_now < e.event_datetime) &&
                  decide (e.event_datetime ≤ utc_now + 60 * h))
    | none => db.events.filter (fun e => decide (utc_now < e.event_datetime))
  (List.insertionSort eventLE rows).map (toEventOut tzOffset)

/-- Model of `database.py` `get_events_for_new_user` lines 137-178: events
with `event_datetime` strictly after `current_time` (which the code takes
from the process-local naive clock `datetime.now()`) and with no
`initial_notification` ledger row for this user, ordered ascending. -/
def get_events_for_new_user (db : DB) (current_time : Int) (user_id : Nat) :
    List Event :=
  List.insertionSort eventLE
    (db.events.filter
      (fun e => decide (current_time < e.event_datetime) &&
                !hasInitialRecord db e.event_id user_id))

/-- Fixed offset table of `bot.py` lines 337-343 (and the identical copy at
lines 441-447): reminder offsets in minutes paired with their message label;
the last entry is the negative offset of the "event started" notice. -/
def notification_times : List (Int × String) :=
  [(1440, "Event starts in 1 day"),
   (360, "Event starts in 6 hours"),
   (60, "Event starts in 1 hour"),
   (15, "Event starts in 15 minutes"),
   (-15, "Event started 15 minutes ago")]

/-- Job id of the event-creation broadcast path, `bot.py` line 362:
`f"event_{event_id}_notification_{time_delta}"`. -/
def broadcastJobId (event_id : Nat) (delta : Int) : String :=
  "event_" ++ toString event_id ++ "_notification_" ++ toString delta

/-- Job id of the per-user reconciliation path, `bot.py` line 462:
`f"event_{event_id}_user_{user_id}_notification_{time_delta}"`. -/
def perUserJobId (event_id user_id : Nat) (delta : Int) : String :=
  "event_" ++ toString event_id ++ "_user_" ++ toString user_id ++
    "_notification_" ++ toString delta

/-- A pending scheduler job: its id, due instant (`run_date`), and the parts
of the payload the claims speak about. -/
structure Job where
  id : String
  run_date : Int
  event_id : Nat
  text : String
deriving Repr, DecidableEq

/-- Modelled from the spec: the Job Scheduler's `schedule` operation
(`scheduler.add_job(..., id=job_id, replace_existing=True)` is library code
of APScheduler, not part of `src/`); per spec section 4.3, if `jobId` is
already present the job is replaced, never duplicated. -/
def add_job (s : List Job) (j : Job) : List Job :=
  s.filter (fun p => p.id != j.id) ++ [j]

/-- Number of pending jobs carrying a given id. -/
def countId (s : List Job) (i : String) : Nat :=
  s.countP (fun j => j.id == i)

/-- Model of `bot.py` `schedule_event_notifications` lines 335-376: for each
fixed offset compute `notification_time = event_datetime - time_delta` and,
only when it is strictly after `now`, add a broadcast job under
`broadcastJobId`. Both `event_datetime` and `now` are aware datetimes in the
configured zone; their comparison is on instants, so they appear here as
instants (`Int` minutes). `schedStep` is the body of the `for time_delta,
notification_text in notification_times` loop. -/
def schedStep (event_id : Nat) (event_datetime now : Int)
    (s' : List Job) (td : Int × String) : List Job :=
  if event_datetime - td.1 > now then
    add_job s' { id := broadcastJobId event_id td.1,
                 run_date := event_datetime - td.1,
                 event_id := event_id, text := td.2 }
  else s'

def schedule_event_notifications (s : List Job) (event_id : Nat)
    (event_datetime now : Int) : List Job :=
  notification_times.foldl (schedStep event_id event_datetime now) s

/-- Outcome of a notification batch: the store after the loop, the users the
transport delivered to, and the users whose delivery failed (logged and
skipped). -/
structure NotifyResult where
  db : DB
  delivered : List Nat
  failures : List Nat
deriving Repr, DecidableEq

/-- Per-user body of the `send_notification` loop, `bot.py` lines 292-303:
on transport success send the photo and record the notification; on a raised
transport error log and continue with the next user. -/
def notifyStep (deliverOk : Nat → Bool) (eid : Nat) (t : String)
    (acc : NotifyResult) (u : Nat) : NotifyResult :=
  if deliverOk u then
    { db := insertRecord acc.db eid u t,
      delivered := acc.delivered ++ [u], failures := acc.failures }
  else
    { db := acc.db, delivered := acc.delivered,
      failures := acc.failures ++ [u] }

/-- Model of `bot.py` `send_notification` lines 280-305 (the spec's
`notifyAll`): iterate over all users, attempting delivery for each; every
exception is caught inside the function, so it always returns an ordinary
`NotifyResult` to its caller. -/
def send_notification (deliverOk : Nat → Bool) (db : DB) (eid : Nat)
    (t : String) : NotifyResult :=
  db.users.foldl (notifyStep deliverOk eid t)
    { db := db, delivered := [], failures := [] }

/-- Per-user body of the `send_event_creation_notification` loop, `bot.py`
lines 323-333: send the photo or log the failure; no ledger write on either
branch. -/
def creationStep (deliverOk : Nat → Bool) (acc : NotifyResult) (u : Nat) :
    NotifyResult :=
  if deliverOk u then
    { db := acc.db, delivered := acc.delivered ++ [u],
      failures := acc.failures }
  else
    { db := acc.db, delivered := acc.delivered,
      failures := acc.failures ++ [u] }

/-- Model of `bot.py` `send_event_creation_notification` lines 307-333: the
new-event announcement broadcast to all users right after `create_event`;
it never calls `record_notification`. -/
def send_event_creation_notification (deliverOk : Nat → Bool) (db : DB) :
    NotifyResult :=
  db.users.foldl (creationStep deliverOk)
    { db := db, delivered := [], failures := [] }

/-! Helper lemmas about strings, job counts and the scheduler model. -/

theorem string_append_left_cancel {s t u : String} (h : s ++ t = s ++ u) :
    t = u := by
  have hd := congrArg String.data h
  simp only [String.data_append] at hd
  exact String.ext (List.append_cancel_left hd)

theorem broadcastJobId_delta_injective (event_id : Nat) {d1 d2 : Int}
    (h : toString d1 ≠ toString d2) :
    broadcastJobId event_id d1 ≠ broadcastJobId event_id d2 :=
  fun hEq => h (string_append_left_cancel hEq)

theorem countId_add_job_eq (s : List Job) (j : Job) {i : String}
    (h : j.id = i) : countId (add_job s j) i = 1 := by
  subst h
  unfold countId add_job
  rw [List.countP_append, List.countP_filter]
  have h1 : List.countP (fun a : Job => a.id == j.id && a.id != j.id) s = 0 :=
    List.countP_eq_zero.mpr (fun a _ => by simp [bne])
  simp [h1, List.countP_cons]

theorem countId_add_job_ne (s : List Job) (j : Job) {i : String}
    (h : i ≠ j.id) : countId (add_job s j) i = countId s i := by
  unfold countId add_job
  rw [List.countP_append, List.countP_filter]
  have h2 : List.countP (fun a : Job => a.id == i) [j] = 0 := by
    simp [List.countP_cons]
    exact fun hji => h hji.symm
  have h1 : List.countP (fun a : Job => a.id == i && a.id != j.id) s
      = List.countP (fun a : Job => a.id == i) s := by
    induction s with
    | nil => rfl
    | cons a as ih =>
      simp only [List.countP_cons, ih]
      by_cases ha : a.id = i
      · simp [ha, bne, fun hji : i = j.id => h hji]
      · simp [ha]
  rw [h1, h2]
  simp

theorem countId_eq_zero_of_forall {s : List Job} {i : String}
    (h : ∀ j ∈ s, j.id ≠ i) : countId s i = 0 :=
  List.countP_eq_zero.mpr (fun a ha => by simpa using h a ha)

theorem countId_schedStep_ne (event_id : Nat) (event_datetime now : Int)
    (s' : List Job) (td : Int × String) {i : String}
    (h : i ≠ broadcastJobId event_id td.1) :
    countId (schedStep event_id event_datetime now s' td) i = countId s' i := by
  unfold schedStep
  split
  · exact countId_add_job_ne s' _ h
  · rfl

theorem foldl_schedStep_countId_invariant (event_id : Nat)
    (event_datetime now : Int) :
    ∀ (ts : List (Int × String)) (s : List Job) (i : String),
      (∀ td ∈ ts, broadcastJobId event_id td.1 ≠ i) →
      countId (ts.foldl (schedStep event_id event_datetime now) s) i
        = countId s i := by
  intro ts
  induction ts with
  | nil => intro s i _; rfl
  | cons a ts ih =>
    intro s i h
    rw [List.foldl_cons]
    rw [ih _ _ (fun td htd => h td (List.mem_cons_of_mem a htd))]
    exact countId_schedStep_ne _ _ _ _ _
      (fun he => h a (List.mem_cons_self a ts) he.symm)

theorem foldl_schedStep_spec (event_id : Nat) (event_datetime now : Int) :
    ∀ (ts : List (Int × String)) (s : List Job) (td : Int × String),
      td ∈ ts →
      (ts.map (fun x => toString x.1)).Nodup →
      countId s (broadcastJobId event_id td.1) = 0 →
      ((event_datetime - td.1 > now →
        countId (ts.foldl (schedStep event_id event_datetime now) s)
          (broadcastJobId event_id td.1) = 1) ∧
       (event_datetime - td.1 < now →
        countId (ts.foldl (schedStep event_id event_datetime now) s)
          (broadcastJobId event_id td.1) = 0)) := by
  intro ts
  induction ts with
  | nil => intro s td htd; cases htd
  | cons a ts ih =>
    intro s td htd hnd h0
    rw [List.map_cons, List.nodup_cons] at hnd
    rw [List.foldl_cons]
    rcases List.mem_cons.mp htd with heq | hmem
    · subst heq
      have hrest : ∀ x ∈ ts,
          broadcastJobId event_id x.1 ≠ broadcastJobId event_id td.1 := by
        intro x hx heq2
        have hren : toString x.1 = toString td.1 :=
          string_append_left_cancel heq2
        exact hnd.1 (List.mem_map.mpr ⟨x, hx, hren⟩)
      rw [foldl_schedStep_countId_invariant _ _ _ ts _ _ hrest]
      constructor
      · intro hgt
        unfold schedStep
        rw [if_pos hgt]
        exact countId_add_job_eq _ _ rfl
      · intro hlt
        unfold schedStep
        rw [if_neg (by omega)]
        exact h0
    · refine ih _ td hmem hnd.2 ?_
      rw [countId_schedStep_ne]
      · exact h0
      · intro heq2
        have hren : toString td.1 = toString a.1 :=
          string_append_left_cancel heq2
        exact hnd.1 (List.mem_map.mpr ⟨td, hmem, hren⟩)

/-- C3: for an event with datetime `event_datetime` and the fixed offsets
{1d, 6h, 1h, 15m, -15m}, running `schedule_event_notifications` at time
`now` enqueues exactly one job for each offset whose due time is strictly
after `now`, and enqueues no job for an offset whose due time is strictly
before `now` (skipped, not back-filled). -/
theorem schedule_event_notifications_future_only (s : List Job)
    (event_id : Nat) (event_datetime now : Int)
    (hs : ∀ j ∈ s, ∀ td ∈ notification_times,
      j.id ≠ broadcastJobId event_id td.1) :
    ∀ td ∈ notification_times,
      (event_datetime - td.1 > now →
        countId (schedule_event_notifications s event_id event_datetime now)
          (broadcastJobId event_id td.1) = 1) ∧
      (event_datetime - td.1 < now →
        countId (schedule_event_notifications s event_id event_datetime now)
          (broadcastJobId event_id td.1) = 0) := by
  intro td htd
  have h0 : countId s (broadcastJobId event_id td.1) = 0 :=
    countId_eq_zero_of_forall (fun j hj => hs j hj td htd)
  have hnd : (notification_times.map (fun x => toString x.1)).Nodup := by
    decide
  exact foldl_schedStep_spec event_id event_datetime now
    notification_times s td htd hnd h0

/-- Witness for C3 at a concrete input: event at minute 2000 scheduled at
minute 1900; the 1-day offset (due 560) is in the past and gets no job, the
event-started offset (due 2015) is in the future and gets exactly one. -/
theorem schedule_event_notifications_future_only_witness :
    countId (schedule_event_notifications [] 2 2000 1900)
      (broadcastJobId 2 1440) = 0 ∧
    countId (schedule_event_notifications [] 2 2000 1900)
      (broadcastJobId 2 (-15)) = 1 :=
  ⟨(schedule_event_notifications_future_only [] 2 2000 1900
      (by simp) (1440, "Event starts in 1 day") (by decide)).2 (by decide),
   (schedule_event_notifications_future_only [] 2 2000 1900
      (by simp) (-15, "Event started 15 minutes ago") (by decide)).1
      (by decide)⟩

/-- C4: scheduling two jobs with the same job id leaves exactly one pending
job under that id, the one from the later call (replacement, not
duplication). -/
theorem add_job_replaces_same_id (s : List Job) (j1 j2 : Job)
    (_h : j1.id = j2.id) :
    (add_job (add_job s j1) j2).filter (fun j => j.id == j2.id) = [j2] ∧
    countId (add_job (add_job s j1) j2) j2.id = 1 := by
  refine ⟨?_, countId_add_job_eq _ _ rfl⟩
  conv_lhs => rw [add_job]
  rw [List.filter_append, List.filter_filter]
  simp [bne]

/-- Witness for C4 at a concrete input: id "a" scheduled twice on a scheduler
already holding an unrelated job "b". -/
theorem add_job_replaces_same_id_witness :
    (add_job (add_job [Job.mk "b" 5 2 "z"] (Job.mk "a" 1 1 "x"))
        (Job.mk "a" 2 1 "y")).filter
      (fun j => j.id == (Job.mk "a" 2 1 "y").id) = [Job.mk "a" 2 1 "y"] ∧
    countId (add_job (add_job [Job.mk "b" 5 2 "z"] (Job.mk "a" 1 1 "x"))
        (Job.mk "a" 2 1 "y")) (Job.mk "a" 2 1 "y").id = 1 :=
  add_job_replaces_same_id [Job.mk "b" 5 2 "z"] (Job.mk "a" 1 1 "x")
    (Job.mk "a" 2 1 "y") rfl

/-- C5: `record_notification` is idempotent: when a ledger row with the
composite key already exists the call succeeds and leaves the store
unchanged, while any other storage fault is propagated to the caller. -/
theorem record_notification_idempotent (db : DB) (eid uid : Nat) (t : String)
    (h : hasRecordKey db eid uid t = true) :
    record_notification none db eid uid t = Except.ok db ∧
    ∀ f, record_notification (some f) db eid uid t = Except.error f := by
  constructor
  · simp [record_notification, insertRecord, h]
  · intro f
    rfl

def wDb : DB :=
  { events := [{ event_id := 1, title := "t", description := "d",
                 photo_id := "p", event_datetime := 0 }],
    users := [7],
    notifications := [{ event_id := 1, user_id := 7,
                        notification_type := "initial_notification" }] }

/-- Witness for C5 at a concrete input: re-recording an
`initial_notification` that is already in the ledger is a silent no-op,
and a connection fault is propagated. -/
theorem record_notification_idempotent_witness :
    record_notification none wDb 1 7 "initial_notification"
      = Except.ok wDb ∧
    ∀ f, record_notification (some f) wDb 1 7 "initial_notification"
      = Except.error f :=
  record_notification_idempotent wDb 1 7 "initial_notification" (by decide)

theorem mem_add_job_self (s : List Job) (j : Job) : j ∈ add_job s j :=
  List.mem_append_right _ (List.mem_singleton_self j)

theorem mem_add_job_of_ne {s : List Job} {j : Job} (j' : Job) (hj : j ∈ s)
    (hne : j.id ≠ j'.id) : j ∈ add_job s j' :=
  List.mem_append_left _ (List.mem_filter.mpr ⟨hj, bne_iff_ne.mpr hne⟩)

theorem perUserJobId_ne_broadcastJobId (event_id user_id : Nat)
    (delta : Int) :
    perUserJobId event_id user_id delta ≠ broadcastJobId event_id delta := by
  intro h
  have hl := congrArg String.length h
  simp only [perUserJobId, broadcastJobId, String.length_append] at hl
  have h6 : ("_user_" : String).length = 6 := rfl
  rw [h6] at hl
  omega

/-- C8: for the same event and reminder kind, the per-user reconciliation
job id and the event-creation broadcast job id are different strings, so
scheduling one never replaces the other: after scheduling both, both jobs
are pending. -/
theorem perUser_and_broadcast_jobs_coexist (event_id user_id : Nat)
    (delta : Int) (s : List Job) (r1 r2 : Int) (e1 e2 : Nat)
    (x1 x2 : String) :
    perUserJobId event_id user_id delta ≠ broadcastJobId event_id delta ∧
    Job.mk (broadcastJobId event_id delta) r1 e1 x1 ∈
      add_job (add_job s (Job.mk (broadcastJobId event_id delta) r1 e1 x1))
        (Job.mk (perUserJobId event_id user_id delta) r2 e2 x2) ∧
    Job.mk (perUserJobId event_id user_id delta) r2 e2 x2 ∈
      add_job (add_job s (Job.mk (broadcastJobId event_id delta) r1 e1 x1))
        (Job.mk (perUserJobId event_id user_id delta) r2 e2 x2) := by
  have hne := perUserJobId_ne_broadcastJobId event_id user_id delta
  exact ⟨hne,
    mem_add_job_of_ne _ (mem_add_job_self s _) (fun hh => hne hh.symm),
    mem_add_job_self _ _⟩

def c1Db : DB :=
  { events := [{ event_id := 1, title := "t", description := "d",
                 photo_id := "p", event_datetime := 0 }],
    users := [7], notifications := [] }

/-- Counterexample to C1 as stated: in `c1Db` the event at datetime 0 has no
`initial_notification` record for user 7, yet `get_events_for_new_user` run
at time 10 (the event's datetime has passed) does not return it — the query
filters on `event_datetime > now`, so "regardless of whether the event's
datetime has passed" is false. -/
theorem getEventsForNewUser_drops_past_unseen_event :
    ({ event_id := 1, title := "t", description := "d", photo_id := "p",
       event_datetime := 0 } : Event) ∈ c1Db.events ∧
    hasInitialRecord c1Db 1 7 = false ∧
    get_events_for_new_user c1Db 10 7 = [] := by
  refine ⟨by decide, by decide, by decide⟩

/-- C1 (amended): `get_events_for_new_user` returns exactly the events whose
datetime is strictly after the process-local current time and for which no
`initial_notification` record exists for this user, ordered ascending by
event datetime. -/
theorem getEventsForNewUser_characterization (db : DB) (current_time : Int)
    (user_id : Nat) :
    (∀ e, e ∈ get_events_for_new_user db current_time user_id ↔
      (e ∈ db.events ∧ current_time < e.event_datetime ∧
       hasInitialRecord db e.event_id user_id = false)) ∧
    List.Sorted eventLE (get_events_for_new_user db current_time user_id) := by
  constructor
  · intro e
    rw [get_events_for_new_user, List.mem_insertionSort, List.mem_filter]
    simp [and_assoc]
  · exact List.sorted_insertionSort eventLE _

theorem creation_loop_invariant (deliverOk : Nat → Bool) :
    ∀ (users : List Nat) (acc : NotifyResult),
      ((users.foldl (creationStep deliverOk) acc).db = acc.db) ∧
      ((users.foldl (creationStep deliverOk) acc).delivered
        = acc.delivered ++ users.filter deliverOk) := by
  intro users
  induction users with
  | nil => intro acc; simp
  | cons u us ih =>
    intro acc
    rw [List.foldl_cons]
    constructor
    · rw [(ih _).1]
      unfold creationStep
      split <;> rfl
    · rw [(ih _).2]
      by_cases hd : deliverOk u = true <;>
        simp [creationStep, hd, List.filter_cons, List.append_assoc]

/-- C9: the event-creation broadcast writes no `NotificationRecord`: the
store (in particular the dedup ledger) is returned unchanged even though
every transport-reachable user was sent the announcement, so every user
still classifies as not having received the initial announcement. -/
theorem send_event_creation_notification_preserves_ledger
    (deliverOk : Nat → Bool) (db : DB) :
    (send_event_creation_notification deliverOk db).db = db ∧
    (send_event_creation_notification deliverOk db).delivered
      = db.users.filter deliverOk ∧
    (∀ current_time user_id,
      get_events_for_new_user
        (send_event_creation_notification deliverOk db).db
        current_time user_id
      = get_events_for_new_user db current_time user_id) := by
  have h := creation_loop_invariant deliverOk db.users
    { db := db, delivered := [], failures := [] }
  have hdb : (send_event_creation_notification deliverOk db).db = db := h.1
  have hdel : (send_event_creation_notification deliverOk db).delivered
      = [] ++ db.users.filter deliverOk := h.2
  exact ⟨hdb, by simpa using hdel, fun ct uid => by rw [hdb]⟩

/-- C10: the two queries classify "future" with different clocks
(`get_upcoming_events` against UTC now, `get_events_for_new_user` against the
process-local naive clock, which reads `utc_now + tzOffset`): an event whose
stored datetime lies strictly between the two is returned by the former and
not by the latter, whatever the ledger says. -/
theorem upcoming_vs_new_user_clock_disagreement (db : DB) (e : Event)
    (user_id : Nat) (utc_now tzOffset : Int) (he : e ∈ db.events)
    (h1 : utc_now < e.event_datetime)
    (h2 : e.event_datetime ≤ utc_now + tzOffset) :
    (∃ o ∈ get_upcoming_events db utc_now tzOffset none,
      o.event_id = e.event_id) ∧
    e ∉ get_events_for_new_user db (utc_now + tzOffset) user_id := by
  constructor
  · refine ⟨toEventOut tzOffset e, ?_, rfl⟩
    exact List.mem_map.mpr
      ⟨e, (List.mem_insertionSort eventLE).mpr
            (List.mem_filter.mpr ⟨he, by simpa using h1⟩), rfl⟩
  · intro hmem
    rw [get_events_for_new_user, List.mem_insertionSort,
      List.mem_filter] at hmem
    have h3 := hmem.2
    simp only [Bool.and_eq_true, decide_eq_true_eq] at h3
    omega

def c10Db : DB :=
  { events := [{ event_id := 3, title := "a", description := "b",
                 photo_id := "c", event_datetime := 100 }],
    users := [], notifications := [] }

/-- Witness for C10 at a concrete input: event stored at minute 100, UTC now
0, zone offset +300 (so local naive now is 300): upcoming for
`get_upcoming_events`, not returned by `get_events_for_new_user`. -/
theorem upcoming_vs_new_user_clock_disagreement_witness :
    (∃ o ∈ get_upcoming_events c10Db 0 300 none, o.event_id = 3) ∧
    ({ event_id := 3, title := "a", description := "b", photo_id := "c",
       event_datetime := 100 } : Event)
      ∉ get_events_for_new_user c10Db (0 + 300) 9 :=
  upcoming_vs_new_user_clock_disagreement c10Db
    { event_id := 3, title := "a", description := "b", photo_id := "c",
      event_datetime := 100 } 9 0 300 (by decide) (by decide) (by decide)

theorem add_job_of_fresh {s : List Job} {j : Job}
    (h : ∀ p ∈ s, p.id ≠ j.id) : add_job s j = s ++ [j] := by
  unfold add_job
  congr 1
  rw [List.filter_eq_self]
  exact fun a ha => bne_iff_ne.mpr (h a ha)

/-- C7: scheduled entirely in the future, the five jobs created by
`schedule_event_notifications` carry, in table order, the due times
`T - 1d`, `T - 6h`, `T - 1h`, `T - 15m` and `T + 15m`: the
`plus_15_minutes_started` kind subtracts the negative offset `-15`, so its
due time is 15 minutes after the event start. -/
theorem schedule_event_notifications_due_times (event_id : Nat)
    (event_datetime now : Int) (h : now < event_datetime - 1440) :
    (schedule_event_notifications [] event_id event_datetime now).map
        (fun j => (j.text, j.run_date)) =
      [("Event starts in 1 day", event_datetime - 1440),
       ("Event starts in 6 hours", event_datetime - 360),
       ("Event starts in 1 hour", event_datetime - 60),
       ("Event starts in 15 minutes", event_datetime - 15),
       ("Event started 15 minutes ago", event_datetime + 15)] := by
  have hbne : ∀ d1 d2 : Int, toString d1 ≠ toString d2 →
      (broadcastJobId event_id d1 != broadcastJobId event_id d2) = true :=
    fun d1 d2 hd =>
      bne_iff_ne.mpr (broadcastJobId_delta_injective event_id hd)
  have b12 := hbne 1440 360 (by decide)
  have b13 := hbne 1440 60 (by decide)
  have b14 := hbne 1440 15 (by decide)
  have b15 := hbne 1440 (-15) (by decide)
  have b23 := hbne 360 60 (by decide)
  have b24 := hbne 360 15 (by decide)
  have b25 := hbne 360 (-15) (by decide)
  have b34 := hbne 60 15 (by decide)
  have b35 := hbne 60 (-15) (by decide)
  have b45 := hbne 15 (-15) (by decide)
  have c1 : event_datetime - (1440:Int) > now := by omega
  have c2 : event_datetime - (360:Int) > now := by omega
  have c3 : event_datetime - (60:Int) > now := by omega
  have c4 : event_datetime - (15:Int) > now := by omega
  have c5 : event_datetime - (-15:Int) > now := by omega
  simp only [schedule_event_notifications, notification_times,
    List.foldl_cons, List.foldl_nil, schedStep]
  rw [if_pos c1, if_pos c2, if_pos c3, if_pos c4, if_pos c5]
  simp only [add_job, List.filter_append, List.filter_cons, List.filter_nil,
    b12, b13, b14, b15, b23, b24, b25, b34, b35, b45, if_true,
    List.nil_append, List.cons_append, List.map_cons, List.map_nil]
  simp [sub_neg_eq_add]

/-- Witness for C7 at a concrete input: event at minute 2000 scheduled at
minute 0, all five due times are produced. -/
theorem schedule_event_notifications_due_times_witness :
    (0:Int) < 2000 - 1440 ∧
    (schedule_event_notifications [] 1 2000 0).map
        (fun j => (j.text, j.run_date)) =
      [("Event starts in 1 day", (560:Int)),
       ("Event starts in 6 hours", 1640),
       ("Event starts in 1 hour", 1940),
       ("Event starts in 15 minutes", 1985),
       ("Event started 15 minutes ago", 2015)] := by
  refine ⟨by decide, ?_⟩
  rw [schedule_event_notifications_due_times 1 2000 0 (by decide)]
  decide

theorem hasRecordKey_insertRecord (db : DB) (eid uid : Nat) (t : String)
    (e' u' : Nat) (t' : String) :
    hasRecordKey (insertRecord db eid uid t) e' u' t' = true ↔
      (hasRecordKey db e' u' t' = true ∨ (eid = e' ∧ uid = u' ∧ t = t')) := by
  unfold insertRecord
  split
  next hpres =>
    constructor
    · exact Or.inl
    · rintro (hh | ⟨he, hu, ht⟩)
      · exact hh
      · subst he; subst hu; subst ht; exact hpres
  next habs =>
    simp [hasRecordKey, List.any_append, and_assoc]

theorem notify_loop_spec (deliverOk : Nat → Bool) (eid : Nat) (t : String) :
    ∀ (users : List Nat) (acc : NotifyResult),
      ((users.foldl (notifyStep deliverOk eid t) acc).delivered
        = acc.delivered ++ users.filter deliverOk) ∧
      ((users.foldl (notifyStep deliverOk eid t) acc).failures
        = acc.failures ++ users.filter (fun u => !deliverOk u)) ∧
      (∀ e' u' t',
        hasRecordKey (users.foldl (notifyStep deliverOk eid t) acc).db
            e' u' t' = true ↔
          (hasRecordKey acc.db e' u' t' = true ∨
            (eid = e' ∧ t = t' ∧ u' ∈ users ∧ deliverOk u' = true))) := by
  intro users
  induction users with
  | nil =>
    intro acc
    refine ⟨by simp, by simp, ?_⟩
    intro e' u' t'
    simp
  | cons u us ih =>
    intro acc
    rw [List.foldl_cons]
    refine ⟨?_, ?_, ?_⟩
    · rw [(ih _).1]
      by_cases hd : deliverOk u = true <;>
        simp [notifyStep, hd, List.filter_cons, List.append_assoc]
    · rw [(ih _).2.1]
      by_cases hd : deliverOk u = true <;>
        simp [notifyStep, hd, List.filter_cons, List.append_assoc]
    · intro e' u' t'
      rw [(ih _).2.2 e' u' t']
      by_cases hd : deliverOk u = true
      · simp only [notifyStep, hd, if_true]
        rw [hasRecordKey_insertRecord]
        constructor
        · rintro ((hh | ⟨he, hu, ht⟩) | ⟨he, ht, hmem, hdel⟩)
          · exact Or.inl hh
          · subst he; subst ht; subst hu
            exact Or.inr ⟨rfl, rfl, List.mem_cons_self u us, hd⟩
          · exact Or.inr ⟨he, ht, List.mem_cons_of_mem u hmem, hdel⟩
        · rintro (hh | ⟨he, ht, hmem, hdel⟩)
          · exact Or.inl (Or.inl hh)
          · rcases List.mem_cons.mp hmem with rfl | hmem'
            · exact Or.inl (Or.inr ⟨he, rfl, ht⟩)
            · exact Or.inr ⟨he, ht, hmem', hdel⟩
      · simp only [notifyStep, hd, if_false]
        constructor
        · rintro (hh | ⟨he, ht, hmem, hdel⟩)
          · exact Or.inl hh
          · exact Or.inr ⟨he, ht, List.mem_cons_of_mem u hmem, hdel⟩
        · rintro (hh | ⟨he, ht, hmem, hdel⟩)
          · exact Or.inl hh
          · rcases List.mem_cons.mp hmem with rfl | hmem'
            · exact absurd hdel hd
            · exact Or.inr ⟨he, ht, hmem', hdel⟩

/-- C2: in a `send_notification` batch every user is attempted (a per-user
delivery failure is logged and skipped, not fatal to the batch), and a
previously unrecorded `NotificationRecord` exists after the batch exactly
for the users delivery succeeded to; the function is total, mirroring that
no exception escapes to its caller. -/
theorem send_notification_batch_spec (deliverOk : Nat → Bool) (db : DB)
    (eid : Nat) (t : String) :
    (send_notification deliverOk db eid t).delivered
      = db.users.filter deliverOk ∧
    (send_notification deliverOk db eid t).failures
      = db.users.filter (fun u => !deliverOk u) ∧
    ∀ u', hasRecordKey db eid u' t = false →
      (hasRecordKey (send_notification deliverOk db eid t).db eid u' t = true
        ↔ (u' ∈ db.users ∧ deliverOk u' = true)) := by
  have h := notify_loop_spec deliverOk eid t db.users
    { db := db, delivered := [], failures := [] }
  have h1 : (send_notification deliverOk db eid t).delivered
      = [] ++ db.users.filter deliverOk := h.1
  have h2 : (send_notification deliverOk db eid t).failures
      = [] ++ db.users.filter (fun u => !deliverOk u) := h.2.1
  refine ⟨by simpa using h1, by simpa using h2, ?_⟩
  intro u' hu'
  have h3 : hasRecordKey (send_notification deliverOk db eid t).db
        eid u' t = true ↔
      (hasRecordKey db eid u' t = true ∨
        (eid = eid ∧ t = t ∧ u' ∈ db.users ∧ deliverOk u' = true)) :=
    h.2.2 eid u' t
  rw [h3, hu']
  simp

def c2Db : DB := { events := [], users := [1, 2, 3], notifications := [] }

/-- Witness for C2 at a concrete input: of users 1, 2, 3 delivery to user 2
fails; users 1 and 3 are delivered and get a ledger row, user 2 is only
logged as a failure. -/
theorem send_notification_batch_spec_witness :
    (send_notification (fun u => u != 2) c2Db 5 "k").delivered = [1, 3] ∧
    (send_notification (fun u => u != 2) c2Db 5 "k").failures = [2] ∧
    (hasRecordKey (send_notification (fun u => u != 2) c2Db 5 "k").db
        5 1 "k" = true
      ↔ (1 ∈ c2Db.users ∧ (fun u => u != (2:Nat)) 1 = true)) := by
  have h := send_notification_batch_spec (fun u => u != 2) c2Db 5 "k"
  exact ⟨h.1.trans (by decide), h.2.1.trans (by decide),
    h.2.2 1 (by decide)⟩

def awareD : AwareDT := { wall := 870, offset := 300 }

def c6Db : DB :=
  create_event { events := [], users := [], notifications := [] }
    1 "T" "Dsc" "P" awareD

/-- C6 evaluated at the failing input: an event created at 14:30 in a +05:00
zone (wall 870, offset 300) is stored as the UTC value 570 — the first half
of the round-trip holds — but `get_upcoming_events` hands that naive UTC
value to `timezone.localize`, returning wall 570 tagged +05:00, which
denotes instant 270, not the created instant 570: the value is not the same
instant re-expressed in the configured zone. -/
theorem get_upcoming_events_wrong_instant :
    create_event_store awareD = instant awareD ∧
    get_upcoming_events c6Db 0 300 none =
      [{ event_id := 1, title := "T", description := "Dsc", photo_id := "P",
         event_datetime := { wall := 570, offset := 300 } }] ∧
    instant { wall := 570, offset := 300 } ≠ instant awareD := by
  exact ⟨rfl, by decide, by decide⟩
